import Mathlib

/-!
# Verification of the snip-rust overlay/capture core

Shallow embedding of the screenshot-overlay program: the capture/channel
normalization layer (`snip-core/src/capture.rs`, `snip-core/src/screenshot.rs`),
the resize-handle hit tester (`src/overlay/handles.rs`), the toolbar layout
(`src/overlay/toolbar.rs`), the overlay interaction state machine
(`src/overlay/state.rs`) and the pinned snapshot window placement
(`src/paste_window.rs`).

Conventions of the embedding:
* Rust `u32` values are modelled as `ℕ`; every place the source performs a
  lossy cast (`as i32`, `as u32`, float-to-int casts) or wrapping arithmetic
  gets an explicit conversion function below.
* Rust `i32` arithmetic (`+`, `-`) is modelled exactly over `ℤ`; the theorems
  carry range hypotheses keeping all intermediate values inside the `i32`
  range, so exact arithmetic agrees with the machine arithmetic there.
* Cursor positions arrive from the window system as `f64` and are immediately
  truncated to the integer pixel grid by the source (`as i32` / `as u32`);
  they are modelled as integer-valued coordinates in `ℤ`, on which the `f64`
  min/abs/compare operations performed by the source are exact.
-/

namespace Snip

/-! ## Machine integer conversions -/

/-- 2^32, the modulus of `u32` arithmetic. -/
def U32M : ℕ := 4294967296

/-- Reinterpretation cast `u32 as i32` (two's complement). -/
def toI32 (n : ℕ) : ℤ :=
  let m := n % U32M
  if m < 2147483648 then (m : ℤ) else (m : ℤ) - (U32M : ℤ)

/-- Wrapping cast `i32 as u32` (two's complement). -/
def wrap32 (z : ℤ) : ℕ := (z % (U32M : ℤ)).toNat

/-- Saturating cast from an (integer-valued) `f64` to `u32`, Rust `as u32`
float-to-int semantics: negative inputs give 0, inputs above `u32::MAX`
give `u32::MAX`. -/
def satU32 (z : ℤ) : ℕ :=
  if z < 0 then 0 else if z > 4294967295 then 4294967295 else z.toNat

/-- Saturating cast from an (integer-valued) `f64` to `i32`. -/
def satI32 (z : ℤ) : ℤ :=
  if z < -2147483648 then -2147483648
  else if z > 2147483647 then 2147483647 else z

/-- `u32` addition (release-mode wrapping semantics). -/
def add32 (a b : ℕ) : ℕ := (a + b) % U32M

/-- Rust `i32::clamp(v, lo, hi)`.  Rust's `clamp` panics when `lo > hi`;
this model returns `lo` there.  Every call site appearing in a proved
theorem below satisfies `lo ≤ hi`, where the two agree. -/
def rclamp (v lo hi : ℤ) : ℤ := max lo (min v hi)

/-! ## Resize handles — `src/overlay/handles.rs` -/

/-- The eight resize handles, `enum ResizeHandle`. -/
inductive ResizeHandle
  | topLeft | top | topRight | right | bottomRight | bottom | bottomLeft | left
  deriving DecidableEq, Repr

/-- Cursor `(cx, cy)` is within the fixed tolerance `R = 5` of the candidate
point `(px, py)`: `(cx - px).abs() <= R && (cy - py).abs() <= R`. -/
def near (cx cy px py : ℤ) : Prop :=
  (cx - px).natAbs ≤ 5 ∧ (cy - py).natAbs ≤ 5

instance (cx cy px py : ℤ) : Decidable (near cx cy px py) :=
  inferInstanceAs (Decidable (_ ∧ _))

/-- `fn hit_test_handle(cx, cy, x, y, w, h)`: the eight candidate points are
checked in source order (corners and edge midpoints interleaved exactly as in
the `points` array), first match wins. -/
def hit_test_handle (cx cy : ℤ) (x y w h : ℕ) : Option ResizeHandle :=
  if w = 0 ∨ h = 0 then none
  else
    let xi := toI32 x
    let yi := toI32 y
    let wi := toI32 w
    let hi := toI32 h
    if near cx cy xi yi then some .topLeft
    else if near cx cy (xi + Int.tdiv wi 2) yi then some .top
    else if near cx cy (xi + wi - 1) yi then some .topRight
    else if near cx cy (xi + wi - 1) (yi + Int.tdiv hi 2) then some .right
    else if near cx cy (xi + wi - 1) (yi + hi - 1) then some .bottomRight
    else if near cx cy (xi + Int.tdiv wi 2) (yi + hi - 1) then some .bottom
    else if near cx cy xi (yi + hi - 1) then some .bottomLeft
    else if near cx cy xi (yi + Int.tdiv hi 2) then some .left
    else none

/-- The point reflection through the selection's center pairs opposite
handles: TopLeft↔BottomRight, Top↔Bottom, TopRight↔BottomLeft, Left↔Right. -/
def mirrorHandle : ResizeHandle → ResizeHandle
  | .topLeft => .bottomRight
  | .top => .bottom
  | .topRight => .bottomLeft
  | .right => .left
  | .bottomRight => .topLeft
  | .bottom => .top
  | .bottomLeft => .topRight
  | .left => .right

/-! ## Toolbar layout — `src/overlay/toolbar.rs` -/

/-- `TB_BUTTONS`: Exit / Pin / Save / Copy / Annotate. -/
def TB_BUTTONS : ℕ := 5

def TB_BTN_W : ℤ := 48

def TB_BTN_H : ℤ := 26

def TB_BTN_PAD_X : ℤ := 6

def TB_BTN_GAP : ℤ := 4

def TB_MARGIN : ℤ := 6

def INSET_PAD : ℤ := 4

/-- Total bar width: `TB_BTN_PAD_X * 2 + 5 * TB_BTN_W + 4 * TB_BTN_GAP`. -/
def TB_TOTAL_W : ℤ := TB_BTN_PAD_X * 2 + (TB_BUTTONS : ℤ) * TB_BTN_W + ((TB_BUTTONS : ℤ) - 1) * TB_BTN_GAP

/-- Total bar height: `TB_BTN_H + 2`. -/
def TB_TOTAL_H : ℤ := TB_BTN_H + 2

/-- `fn compute_toolbar_rect(sel_x, sel_y, sel_w, sel_h, screen_w, screen_h)`.
Placement: below the selection if there is room, else above if there is room
and the resulting y is nonnegative, else embedded at the selection's
bottom-right corner; the x (and in the embedded case y) coordinate is clamped
against the screen extent. -/
def compute_toolbar_rect (selX selY selW selH screenW screenH : ℕ) :
    Option (ℤ × ℤ × ℤ × ℤ) :=
  if selW = 0 ∨ selH = 0 then none
  else
    let totalW := TB_TOTAL_W
    let totalH := TB_TOTAL_H
    let sw := toI32 screenW
    let sh := toI32 screenH
    if sw ≤ 0 ∨ sh ≤ 0 then none
    else
      let selBottom := toI32 selY + toI32 selH
      let spaceBelow := max (sh - selBottom) 0
      let spaceAbove := toI32 selY
      if spaceBelow ≥ totalH + TB_MARGIN then
        let barY := selBottom + TB_MARGIN
        let barX0 := toI32 selX + Int.tdiv (toI32 selW) 2 - Int.tdiv totalW 2
        let barX1 := if barX0 < 0 then 0 else barX0
        let maxX := sw - totalW
        let barX := if maxX < 0 then 0 else if barX1 > maxX then maxX else barX1
        some (barX, barY, totalW, totalH)
      else if spaceAbove ≥ totalH + TB_MARGIN ∧
          toI32 selY - TB_MARGIN - totalH ≥ 0 then
        let barY := toI32 selY - TB_MARGIN - totalH
        let barX0 := toI32 selX + Int.tdiv (toI32 selW) 2 - Int.tdiv totalW 2
        let barX1 := if barX0 < 0 then 0 else barX0
        let maxX := sw - totalW
        let barX := if maxX < 0 then 0 else if barX1 > maxX then maxX else barX1
        some (barX, barY, totalW, totalH)
      else
        let barX0 := toI32 selX + toI32 selW - totalW - INSET_PAD
        let barY0 := toI32 selY + toI32 selH - totalH - INSET_PAD
        let barX1 := if barX0 < 0 then 0 else barX0
        let barY1 := if barY0 < 0 then 0 else barY0
        let maxX := sw - totalW
        let maxY := sh - totalH
        let barX := if barX1 > maxX then max maxX 0 else barX1
        let barY := if barY1 > maxY then max maxY 0 else barY1
        some (barX, barY, totalW, totalH)

/-- One slot of the toolbar button scan: slot `idx` starts at
`bar_x + TB_BTN_PAD_X + idx * (TB_BTN_W + TB_BTN_GAP)` (the running `cursor`
of the source loop after `idx` increments). -/
def toolbar_slot_hit (px py barX barY barH : ℤ) (idx : ℕ) : Bool :=
  let c := barX + TB_BTN_PAD_X + (idx : ℤ) * (TB_BTN_W + TB_BTN_GAP)
  decide (px ≥ c ∧ px < c + TB_BTN_W ∧ py ≥ barY ∧ py < barY + barH)

/-- `fn hit_test_toolbar_button(px, py, bar_x, bar_y, bar_w, bar_h)`:
`None` outside the bar, otherwise a left-to-right linear scan over the five
button slots. -/
def hit_test_toolbar_button (px py barX barY barW barH : ℤ) : Option ℕ :=
  if px < barX ∨ py < barY ∨ px ≥ barX + barW ∨ py ≥ barY + barH then none
  else (List.range TB_BUTTONS).find? (toolbar_slot_hit px py barX barY barH)

/-! ## Overlay state machine — `src/overlay/state.rs` -/

/-- `enum OverlayMode`. -/
inductive OverlayMode
  | idle | dragging | movingSelection | resizing | idleWithSelection | annotating
  deriving DecidableEq, Repr

/-- `enum OverlayAction`.  The PNG codec is an opaque collaborator; the
`png` payload is modelled as the `(width, height, RGBA bytes)` triple handed
to the encoder (see `take_selection_data`). -/
inductive OverlayAction
  | none
  | canceled
  | pasteSelection (png : ℕ × ℕ × List ℕ) (width height : ℕ) (screenX screenY : ℤ)
  deriving DecidableEq, Repr

/-- `struct OverlayState`, its interaction-relevant fields.  The window
handle, softbuffer context and surface are collaborator resources carrying no
interaction state and are omitted; calls on them (`set_visible`,
`request_redraw`, `set_cursor`, `focus_window`) are effects on collaborators.
`screenshot` is `(width, height, RGBA bytes)`; `selection` is `(x, y, w, h)`
in capture-local `u32` coordinates; `lastCursor` and `dragStart` hold the
integer-valued cursor coordinates (`f64` in the source, see the header). -/
structure OverlayState where
  visible : Bool
  screenshot : Option (ℕ × ℕ × List ℕ)
  origin : ℤ × ℤ
  dimCache : Option (List ℕ)
  dragStart : Option (ℤ × ℤ)
  lastCursor : ℤ × ℤ
  selection : Option (ℕ × ℕ × ℕ × ℕ)
  moveOffset : Option (ℤ × ℤ)
  mode : OverlayMode
  resizeHandle : Option ResizeHandle
  toolbarRect : Option (ℤ × ℤ × ℤ × ℤ)
  toolbarHover : Option ℕ
  deriving DecidableEq, Repr

/-- The window events `handle_event` distinguishes: left/right mouse button
press/release, cursor movement (coordinates on the integer grid), the Escape
key press, and `other` standing for every remaining `WindowEvent` variant
(all of which fall into the match's final `_ => {}`). -/
inductive OverlayEvent
  | mouseLeft (pressed : Bool)
  | mouseRight (pressed : Bool)
  | cursorMoved (x y : ℤ)
  | escapePressed
  | other
  deriving DecidableEq, Repr

/-- `fn mix_dim`'s per-channel darkening `((c as f32) * 0.6) as u8`.
For `c ≤ 255` the `f32` computation truncates to `⌊c * 6 / 10⌋`. -/
def dim_channel (c : ℕ) : ℕ := c * 6 / 10

/-- `u32::from_le_bytes [b0, b1, b2, b3]`. -/
def pack_le (b0 b1 b2 b3 : ℕ) : ℕ :=
  b0 % 256 + 256 * (b1 % 256) + 65536 * (b2 % 256) + 16777216 * (b3 % 256)

/-- `fn mix_dim(src: u32)`: unpack little-endian BGRA, scale B, G, R by 0.6,
keep A. -/
def mix_dim (src : ℕ) : ℕ :=
  let b := src % 256
  let g := src / 256 % 256
  let r := src / 65536 % 256
  let a := src / 16777216 % 256
  pack_le (dim_channel b) (dim_channel g) (dim_channel r) a

/-- `fn build_caches`'s loop body: each RGBA byte quadruple is packed to a
little-endian BGRA `u32` and darkened with `mix_dim` (`chunks_exact(4)` drops
a trailing partial chunk). -/
def build_caches_list : List ℕ → List ℕ
  | r :: g :: b :: a :: rest => mix_dim (pack_le b g r a) :: build_caches_list rest
  | _ => []

/-- `fn hide`: the overlay becomes invisible (the window is hidden, a
collaborator effect) and the screenshot, selection, drag anchor and dim cache
are released. -/
def hide (st : OverlayState) : OverlayState :=
  { st with visible := false, screenshot := Option.none, selection := Option.none,
            dragStart := Option.none, dimCache := Option.none }

/-- `fn show_with_image(w, h, pixels, origin)`: store the capture, clear the
selection and drag anchor, become visible in `Idle` mode, rebuild the dim
cache. -/
def show_with_image (st : OverlayState) (w h : ℕ) (pixels : List ℕ)
    (origin : ℤ × ℤ) : OverlayState :=
  { st with screenshot := some (w, h, pixels), origin := origin,
            selection := Option.none, dragStart := Option.none, visible := true,
            mode := .idle, dimCache := some (build_caches_list pixels) }

/-- The row-copy loop shared by `take_selection_png` and `capture_area`:
`n` iterations, iteration `row` appending
`buf[((y + row) * sw + x) * 4 .. +(rw * 4)]` to the output.  Out-of-range
slices (which would panic in the source) simply come out short here; the
theorems carry the bounds under which the slices are in range. -/
def crop_rows (buf : List ℕ) (sw x y rw : ℕ) : ℕ → List ℕ
  | 0 => []
  | n + 1 => crop_rows buf sw x y rw n ++
      (buf.drop (((y + n) * sw + x) * 4)).take (rw * 4)

/-- `fn take_selection_png` up to PNG encoding.  Returns the
`(width, height, RGBA bytes)` triple handed to `PngEncoder::write_image`
(the codec being an opaque collaborator); the final length test folds the
`ImageBuffer::from_raw` buffer-size check and the encoder's exact-size check
into one condition, both of which reject exactly when the assembled buffer
does not hold `rw * rh` pixels. -/
def take_selection_data (st : OverlayState) : Option (ℕ × ℕ × List ℕ) :=
  match st.screenshot, st.selection with
  | some (sw, sh, buf), some (x, y, w, h) =>
    if w = 0 ∨ h = 0 then Option.none
    else if x ≥ sw ∨ y ≥ sh then Option.none
    else
      let rw := min w (sw - x)
      let rh := min h (sh - y)
      let out := crop_rows buf sw x y rw rh
      if out.length = rw * rh * 4 then some (rw, rh, out) else Option.none
  | _, _ => Option.none

/-- `fn execute_toolbar_button(index)`: 0 = Exit, 1 = Pin, 2 = Save (writes a
file, a collaborator effect; the state is untouched), 3 = Copy (no-op),
4 = Annotate. -/
def execute_toolbar_button (st : OverlayState) (index : ℕ) :
    OverlayState × OverlayAction :=
  match index with
  | 0 => (hide st, .canceled)
  | 1 =>
    match take_selection_data st with
    | some png =>
      match st.selection with
      | some (sx, sy, w, h) =>
        let screenX := st.origin.1 + toI32 sx
        let screenY := st.origin.2 + toI32 sy
        (hide st, .pasteSelection png w h screenX screenY)
      | Option.none => (hide st, .none)
    | Option.none => (st, .none)
  | 2 => (st, .none)
  | 3 => (st, .none)
  | 4 => ({ st with mode := .annotating }, .none)
  | _ => (st, .none)

/-- The `OverlayMode::Resizing` branch of the cursor-move handler: adjust the
selection edge(s) for the active handle with `MIN = 4`, then clamp the result
against the capture extent, then store the four values with `as u32` casts.
`cx`, `cy` are the cursor coordinates already cast to `i32`. -/
def resize_step (sw sh : ℕ) (sx sy w h : ℕ) (handle : ResizeHandle)
    (cx cy : ℤ) : ℕ × ℕ × ℕ × ℕ :=
  let x0 := toI32 sx
  let y0 := toI32 sy
  let w0 := toI32 w
  let h0 := toI32 h
  let adj : ℤ × ℤ × ℤ × ℤ :=
    match handle with
    | .topLeft =>
      let nx := rclamp cx 0 (toI32 (add32 sx w) - 4)
      let ny := rclamp cy 0 (toI32 (add32 sy h) - 4)
      (nx, ny, max (x0 + w0 - nx) 4, max (y0 + h0 - ny) 4)
    | .top =>
      let ny := rclamp cy 0 (toI32 (add32 sy h) - 4)
      (x0, ny, w0, max (y0 + h0 - ny) 4)
    | .topRight =>
      let ny := rclamp cy 0 (toI32 (add32 sy h) - 4)
      let nx2 := rclamp cx (toI32 sx + 4) (toI32 sw - 1)
      (x0, ny, max (nx2 - x0 + 1) 4, max (y0 + h0 - ny) 4)
    | .right =>
      let nx2 := rclamp cx (toI32 sx + 4) (toI32 sw - 1)
      (x0, y0, max (nx2 - x0 + 1) 4, h0)
    | .bottomRight =>
      let nx2 := rclamp cx (toI32 sx + 4) (toI32 sw - 1)
      let ny2 := rclamp cy (toI32 sy + 4) (toI32 sh - 1)
      (x0, y0, max (nx2 - x0 + 1) 4, max (ny2 - y0 + 1) 4)
    | .bottom =>
      let ny2 := rclamp cy (toI32 sy + 4) (toI32 sh - 1)
      (x0, y0, w0, max (ny2 - y0 + 1) 4)
    | .bottomLeft =>
      let nx := rclamp cx 0 (toI32 (add32 sx w) - 4)
      let ny2 := rclamp cy (toI32 sy + 4) (toI32 sh - 1)
      (nx, y0, max (x0 + w0 - nx) 4, max (ny2 - y0 + 1) 4)
    | .left =>
      let nx := rclamp cx 0 (toI32 (add32 sx w) - 4)
      (nx, y0, max (x0 + w0 - nx) 4, h0)
  let x1 := adj.1
  let y1 := adj.2.1
  let rw1 := adj.2.2.1
  let rh1 := adj.2.2.2
  let x2 := if x1 < 0 then 0 else x1
  let y2 := if y1 < 0 then 0 else y1
  let rw2 := if x2 + rw1 > toI32 sw then toI32 sw - x2 else rw1
  let rh2 := if y2 + rh1 > toI32 sh then toI32 sh - y2 else rh1
  (wrap32 x2, wrap32 y2, wrap32 rw2, wrap32 rh2)

/-- `fn handle_event(event)`: the full interaction state machine.  Returns
the successor state and the emitted `OverlayAction`.  Effects on the window
collaborator (`request_redraw`, `set_cursor`, `set_visible`) carry no
interaction state and are not part of the result. -/
def handle_event (st : OverlayState) (ev : OverlayEvent) :
    OverlayState × OverlayAction :=
  if st.visible = false then (st, .none)
  else
    match ev with
    | .mouseLeft true =>
      match st.mode with
      | .idle =>
        ({ st with dragStart := some st.lastCursor, selection := Option.none,
                   mode := .dragging }, .none)
      | .idleWithSelection =>
        match st.selection with
        | some (x, y, w, h) =>
          let cx := satI32 st.lastCursor.1
          let cy := satI32 st.lastCursor.2
          match hit_test_handle cx cy x y w h with
          | some hdl =>
            ({ st with resizeHandle := some hdl, mode := .resizing }, .none)
          | Option.none =>
            if cx ≥ toI32 x ∧ cy ≥ toI32 y ∧ cx < toI32 (add32 x w) ∧
                cy < toI32 (add32 y h) then
              ({ st with moveOffset := some (cx - toI32 x, cy - toI32 y),
                         mode := .movingSelection }, .none)
            else (st, .none)
        | Option.none => (st, .none)
      | _ => (st, .none)
    | .mouseLeft false =>
      let hit :=
        if st.mode = .idleWithSelection then
          match st.toolbarRect with
          | some (bX, bY, bW, bH) =>
            hit_test_toolbar_button (satI32 st.lastCursor.1)
              (satI32 st.lastCursor.2) bX bY bW bH
          | Option.none => Option.none
        else Option.none
      let step :=
        match hit with
        | some btn => execute_toolbar_button st btn
        | Option.none => (st, .none)
      let st1 := step.1
      let act := step.2
      match st1.mode with
      | .dragging =>
        ({ st1 with dragStart := Option.none,
                    mode := if st1.selection.isSome then .idleWithSelection
                            else .idle }, act)
      | .movingSelection =>
        ({ st1 with moveOffset := Option.none, mode := .idleWithSelection }, act)
      | .resizing =>
        ({ st1 with resizeHandle := Option.none, mode := .idleWithSelection }, act)
      | _ => (st1, act)
    | .mouseRight true =>
      match st.mode with
      | .idle => (hide st, .none)
      | .idleWithSelection =>
        ({ st with selection := Option.none, mode := .idle }, .none)
      | _ => (st, .none)
    | .mouseRight false => (st, .none)
    | .cursorMoved px py =>
      let st := { st with lastCursor := (px, py) }
      match st.mode with
      | .dragging =>
        match st.dragStart with
        | some (ax, ay) =>
          let x0 := min ax px
          let y0 := min ay py
          let w := (ax - px).natAbs
          let h := (ay - py).natAbs
          let sel := some (satU32 x0, satU32 y0, satU32 (w : ℤ), satU32 (h : ℤ))
          ({ st with selection := sel }, .none)
        | Option.none => (st, .none)
      | .movingSelection =>
        match st.screenshot, st.selection, st.moveOffset with
        | some (sw, sh, _), some (_, _, w, h), some (ox, oy) =>
          let cx := satI32 px
          let cy := satI32 py
          let nx0 := cx - ox
          let ny0 := cy - oy
          let nx1 := if nx0 < 0 then 0 else nx0
          let ny1 := if ny0 < 0 then 0 else ny0
          let maxX := max (toI32 sw - toI32 w) 0
          let maxY := max (toI32 sh - toI32 h) 0
          let nx2 := if nx1 > maxX then maxX else nx1
          let ny2 := if ny1 > maxY then maxY else ny1
          ({ st with selection := some (wrap32 nx2, wrap32 ny2, w, h) }, .none)
        | _, _, _ => (st, .none)
      | .resizing =>
        match st.screenshot, st.selection, st.resizeHandle with
        | some (sw, sh, _), some (sx, sy, w, h), some handle =>
          let sel := some (resize_step sw sh sx sy w h handle (satI32 px) (satI32 py))
          ({ st with selection := sel }, .none)
        | _, _, _ => (st, .none)
      | .idleWithSelection =>
        match st.selection with
        | some _ =>
          let cx := satI32 px
          let cy := satI32 py
          match st.toolbarRect with
          | some (bX, bY, bW, bH) =>
            match hit_test_toolbar_button cx cy bX bY bW bH with
            | some btn => ({ st with toolbarHover := some btn }, .none)
            | Option.none => ({ st with toolbarHover := Option.none }, .none)
          | Option.none => ({ st with toolbarHover := Option.none }, .none)
        | Option.none => (st, .none)
      | _ => (st, .none)
    | .escapePressed => (hide st, .none)
    | .other => (st, .none)

/-- Fold a list of window events through `handle_event`, keeping the state. -/
def run_events (st : OverlayState) (evs : List OverlayEvent) : OverlayState :=
  evs.foldl (fun s e => (handle_event s e).1) st

/-- The freshly constructed overlay (`OverlayState::new`): hidden, empty. -/
def initial_overlay_state : OverlayState :=
  { visible := false, screenshot := Option.none, origin := (0, 0),
    dimCache := Option.none, dragStart := Option.none, lastCursor := (0, 0),
    selection := Option.none, moveOffset := Option.none, mode := .idle,
    resizeHandle := Option.none, toolbarRect := Option.none,
    toolbarHover := Option.none }

/-! ## Capture layer — `snip-core/src/capture.rs` and
`snip-core/src/screenshot.rs` -/

/-- The `chunks_exact(4)` loop of `fn bgra_to_rgba`: each 4-byte chunk
`[b, g, r, a]` is emitted as `[r, g, b, a]`; a trailing partial chunk is
dropped (the inner `chunk.len() == 4` test is always true under
`chunks_exact`). -/
def swap_chunks : List ℕ → List ℕ
  | b :: g :: r :: a :: rest => r :: g :: b :: a :: swap_chunks rest
  | _ => []

/-- `Vec::resize(n, 0)`: truncate or zero-pad to length `n`. -/
def list_resize (l : List ℕ) (n : ℕ) : List ℕ :=
  l.take n ++ List.replicate (n - l.length) 0

/-- `fn bgra_to_rgba(bgra, w, h)` (identical in `capture.rs` and
`screenshot.rs`): swap the first and third byte of every 4-byte pixel, then
force the output length to `w * h * 4`. -/
def bgra_to_rgba (bgra : List ℕ) (w h : ℕ) : List ℕ :=
  let out := swap_chunks bgra
  if out.length = w * h * 4 then out else list_resize out (w * h * 4)

/-- `fn maybe_convert_bgra(raw, w, h)` in `capture.rs`: the environment
toggle `SNIP_FORCE_BGRA` (modelled as the `force` flag) selects between the
channel swap and a plain copy. -/
def maybe_convert_bgra (force : Bool) (raw : List ℕ) (w h : ℕ) : List ℕ :=
  if force then bgra_to_rgba raw w h else raw

/-- The pixel pipeline of `capture.rs::capture_fullscreen`, from the raw
buffer the capture collaborator returned to the bytes handed to the PNG
encoder. -/
def capture_fullscreen_pixels (force : Bool) (raw : List ℕ) (w h : ℕ) :
    List ℕ :=
  maybe_convert_bgra force raw w h

/-- The pixel pipeline of `screenshot.rs::capture_fullscreen`: it calls
`bgra_to_rgba` directly, with no toggle. -/
def screenshot_fullscreen_pixels (raw : List ℕ) (w h : ℕ) : List ℕ :=
  bgra_to_rgba raw w h

/-- `struct Rect` of the capture layer (`x`, `y` global `i32` coordinates,
`width`, `height` in `u32`). -/
structure CaptureRect where
  x : ℤ
  y : ℤ
  width : ℕ
  height : ℕ
  deriving DecidableEq, Repr

/-- The monitor picked by `Screen::from_point` together with the image its
`capture()` returned: display origin and the raw pixel buffer with its
dimensions. -/
structure MonitorShot where
  originX : ℤ
  originY : ℤ
  imgW : ℕ
  imgH : ℕ
  raw : List ℕ
  deriving DecidableEq, Repr

/-- `capture.rs::capture_area(rect)` after `Screen::from_point` and
`screen.capture()` succeeded: the relative offset is
`(rect.x - origin_x).max(0) as u32` (same for y), the crop dimensions are
the requested size clamped by `saturating_sub` against the image extent, and
the output is the row-by-row copy handed to the PNG encoder together with
those dimensions. -/
def capture_area_crop (force : Bool) (shot : MonitorShot) (rect : CaptureRect) :
    ℕ × ℕ × List ℕ :=
  let relX := wrap32 (max (rect.x - shot.originX) 0)
  let relY := wrap32 (max (rect.y - shot.originY) 0)
  let maxW := shot.imgW - relX
  let maxH := shot.imgH - relY
  let cropW := min rect.width maxW
  let cropH := min rect.height maxH
  let rgbaFull := maybe_convert_bgra force shot.raw shot.imgW shot.imgH
  (cropW, cropH, crop_rows rgbaFull shot.imgW relX relY cropW cropH)

/-! ## Pinned snapshot window — `src/paste_window.rs` and `src/main.rs` -/

/-- `PasteWindow::new_from_png`'s fixed border margin: outer 1px dark line
plus inner 1px focus line. -/
def PASTE_MARGIN : ℕ := 2

/-- The outer position `new_from_png` sets for a desired position `(x, y)`:
the window content should align with the selection, so the window (which
includes the margin) is shifted up-left by the margin. -/
def paste_window_outer_pos (desired : ℤ × ℤ) : ℤ × ℤ :=
  (desired.1 - (PASTE_MARGIN : ℤ), desired.2 - (PASTE_MARGIN : ℤ))

/-- The controller loop in `main.rs`: a `PasteSelection` action becomes a
`PasteWindow::new_from_png(.., Some((screen_x, screen_y)))` call; other
actions create no snapshot window. -/
def controller_paste_outer_pos : OverlayAction → Option (ℤ × ℤ)
  | .pasteSelection _ _ _ sx sy => some (paste_window_outer_pos (sx, sy))
  | _ => Option.none

/-! ## Sample states used by witnesses and counterexamples -/

/-- A visible overlay directly after `show_with_image` of a 1920×1080
capture (pixel payload irrelevant to the state machine, kept empty). -/
def sample_visible_state : OverlayState :=
  show_with_image initial_overlay_state 1920 1080 [] (0, 0)

/-- Events reaching `Resizing` mode with a selection that a drag beyond the
window edge created: drag from (100, 100) to (3000, 400) on a 1920×1080
capture (cursor-capture delivers out-of-window coordinates during a drag),
then grab the Left handle at (100, 250). -/
def resize_trace_prefix : List OverlayEvent :=
  [.cursorMoved 100 100, .mouseLeft true, .cursorMoved 3000 400,
   .mouseLeft false, .cursorMoved 100 250, .mouseLeft true]

/-- A visible overlay showing an 8×8 capture with the selection (2, 2, 4, 4)
committed (`IdleWithSelection`, toolbar visible at its computed spot). -/
def c1_sample_state : OverlayState :=
  { initial_overlay_state with
      visible := true,
      screenshot := some (8, 8, List.replicate 256 0),
      selection := some (2, 2, 4, 4),
      mode := .idleWithSelection }

/-- The 4×4 selection of `c1_sample_state` with the toolbar shown at
(0, 50) and the cursor on the Pin button. -/
def c7_sample_state : OverlayState :=
  { c1_sample_state with
      toolbarRect := some (0, 50, 268, 28),
      lastCursor := (60, 55) }

/-! ## Machine-integer conversion lemmas -/

theorem toI32_of_lt {n : ℕ} (h : n < 2147483648) : toI32 n = (n : ℤ) := by
  unfold toI32 U32M
  rw [Nat.mod_eq_of_lt (by omega)]
  simp only [if_pos h]

theorem wrap32_of_nonneg {z : ℤ} (h0 : 0 ≤ z) (h1 : z < 4294967296) :
    wrap32 z = z.toNat := by
  unfold wrap32 U32M
  omega

theorem add32_of_lt {a b : ℕ} (h : a + b < 4294967296) : add32 a b = a + b := by
  unfold add32 U32M
  omega

theorem satI32_of_range {z : ℤ} (h0 : -2147483648 ≤ z) (h1 : z ≤ 2147483647) :
    satI32 z = z := by
  unfold satI32
  split_ifs <;> omega

theorem satU32_of_range {z : ℤ} (h0 : 0 ≤ z) (h1 : z ≤ 4294967295) :
    satU32 z = z.toNat := by
  unfold satU32
  split_ifs <;> omega

/-- Truncating division for nonnegative operands agrees with `ℤ` division. -/
theorem tdiv_two_nonneg (a : ℤ) (h : 0 ≤ a) : Int.tdiv a 2 = a / 2 := by
  rw [Int.tdiv_eq_ediv] <;> omega

/-! ## C10 — invisible overlay ignores events -/

/-- C10: while `visible` is false, `handle_event` returns
`OverlayAction::None` for every window event and leaves every field of the
`OverlayState` unchanged. -/
theorem handle_event_invisible_is_noop (st : OverlayState) (ev : OverlayEvent)
    (h : st.visible = false) : handle_event st ev = (st, OverlayAction.none) := by
  unfold handle_event
  rw [if_pos h]

/-- Witness for `handle_event_invisible_is_noop`: the freshly constructed
(hidden) overlay ignores an Escape press. -/
theorem handle_event_invisible_is_noop_witness :
    handle_event initial_overlay_state .escapePressed =
      (initial_overlay_state, OverlayAction.none) :=
  handle_event_invisible_is_noop initial_overlay_state .escapePressed rfl

/-! ## C3 — Escape hides the overlay -/

/-- C3 counterexample: on a visible overlay an Escape press makes
`handle_event` return `OverlayAction::None`, not `Canceled` as claimed (the
`Escape` arm of the source calls `hide()` but never assigns
`immediate_action`). -/
theorem escape_action_is_not_canceled :
    (handle_event sample_visible_state .escapePressed).2 = OverlayAction.none ∧
    (handle_event sample_visible_state .escapePressed).2 ≠ OverlayAction.canceled := by
  decide

/-- C3 amended: in every mode, while the overlay is visible, an Escape key
press hides the overlay (`visible` becomes false, and the screenshot,
selection, drag anchor and dim cache are released as `hide` does) and
`handle_event` returns `OverlayAction::None`. -/
theorem escape_hides_overlay (st : OverlayState) (h : st.visible = true) :
    handle_event st .escapePressed = (hide st, OverlayAction.none) ∧
    (handle_event st .escapePressed).1.visible = false := by
  unfold handle_event
  rw [if_neg (by simp [h])]
  exact ⟨rfl, by simp [hide]⟩

/-- Witness for `escape_hides_overlay` at the sample visible state. -/
theorem escape_hides_overlay_witness :
    handle_event sample_visible_state .escapePressed =
      (hide sample_visible_state, OverlayAction.none) ∧
    (handle_event sample_visible_state .escapePressed).1.visible = false :=
  escape_hides_overlay sample_visible_state rfl

/-! ## C4 — press and release at the same point -/

/-- C4 counterexample: pressing and releasing the left button in `Idle` with
no intervening cursor move emits `OverlayAction::None` on the release, not
`Canceled` as claimed (no arm of the release path assigns `Canceled` outside
the toolbar `Exit` button). -/
theorem press_release_action_is_not_canceled :
    (handle_event (handle_event sample_visible_state (.mouseLeft true)).1
        (.mouseLeft false)).2 = OverlayAction.none ∧
    (handle_event (handle_event sample_visible_state (.mouseLeft true)).1
        (.mouseLeft false)).2 ≠ OverlayAction.canceled := by
  decide

/-- C4 amended: pressing the left button in `Idle` mode and releasing it at
the identical cursor position with no intervening cursor move leaves the
selection empty, returns the mode to `Idle`, and the action emitted on that
release is `OverlayAction::None` (not `Canceled`). -/
theorem press_release_same_point (st : OverlayState)
    (hv : st.visible = true) (hm : st.mode = .idle) :
    (handle_event st (.mouseLeft true)).1.selection = Option.none ∧
    (handle_event (handle_event st (.mouseLeft true)).1 (.mouseLeft false)).1.selection
      = Option.none ∧
    (handle_event (handle_event st (.mouseLeft true)).1 (.mouseLeft false)).1.mode
      = OverlayMode.idle ∧
    (handle_event (handle_event st (.mouseLeft true)).1 (.mouseLeft false)).2
      = OverlayAction.none := by
  simp [handle_event, hv, hm]

/-- Witness for `press_release_same_point` at the sample visible state. -/
theorem press_release_same_point_witness :
    (handle_event sample_visible_state (.mouseLeft true)).1.selection = Option.none ∧
    (handle_event (handle_event sample_visible_state (.mouseLeft true)).1
        (.mouseLeft false)).1.selection = Option.none ∧
    (handle_event (handle_event sample_visible_state (.mouseLeft true)).1
        (.mouseLeft false)).1.mode = OverlayMode.idle ∧
    (handle_event (handle_event sample_visible_state (.mouseLeft true)).1
        (.mouseLeft false)).2 = OverlayAction.none :=
  press_release_same_point sample_visible_state rfl rfl

/-! ## C2 — resize clamping can escape the capture bounds -/

/-- C2: a cursor move in `Resizing` mode can yield a selection whose left
edge (2100) exceeds the capture width (1920) and whose stored width is the
wrapped `u32` of the negative `sw - x` (4294967116): the final clamp
`if x + rw > sw { rw = sw - x }` goes negative when the selection lies
beyond the capture, and the `as u32` store wraps it. -/
theorem resize_step_escapes_capture_bounds :
    (run_events sample_visible_state resize_trace_prefix).mode
      = OverlayMode.resizing ∧
    (run_events sample_visible_state resize_trace_prefix).selection
      = some (100, 100, 2900, 300) ∧
    (handle_event (run_events sample_visible_state resize_trace_prefix)
        (.cursorMoved 2100 250)).1.selection = some (2100, 100, 4294967116, 300) ∧
    ¬(2100 + 4294967116 ≤ 1920 ∧ 2100 ≤ 1920) := by
  decide

/-! ## C1 — the selection crop has exactly the selection's dimensions -/

/-- Each of the `n` copied rows contributes exactly `rw * 4` bytes when the
row slices stay inside the buffer. -/
theorem crop_rows_length (buf : List ℕ) (sw sh x y rw n : ℕ)
    (hbuf : buf.length = sw * sh * 4) (hx : x + rw ≤ sw) (hyn : y + n ≤ sh) :
    (crop_rows buf sw x y rw n).length = n * (rw * 4) := by
  induction n with
  | zero => simp [crop_rows]
  | succ k ih =>
    rw [crop_rows, List.length_append, ih (by omega), List.length_take,
      List.length_drop, hbuf]
    have hbound : ((y + k) * sw + x) * 4 + rw * 4 ≤ sw * sh * 4 := by
      have h1 : (y + k) * sw + x + rw ≤ (y + k + 1) * sw := by
        have : (y + k + 1) * sw = (y + k) * sw + sw := by ring
        omega
      have h2 : (y + k + 1) * sw ≤ sh * sw := Nat.mul_le_mul_right sw (by omega)
      calc ((y + k) * sw + x) * 4 + rw * 4
          = ((y + k) * sw + x + rw) * 4 := by ring
        _ ≤ (sh * sw) * 4 := by omega
        _ = sw * sh * 4 := by ring
    rw [Nat.min_eq_left (by omega)]
    ring

/-- `take_selection_png` on a selection contained in the screenshot: the
crop succeeds with exactly the selection's dimensions and the assembled
buffer is the row-by-row copy. -/
theorem take_selection_data_eq (st : OverlayState) (sw sh x y w h : ℕ)
    (buf : List ℕ) (hs : st.screenshot = some (sw, sh, buf))
    (hsel : st.selection = some (x, y, w, h)) (hbuf : buf.length = sw * sh * 4)
    (hw : 0 < w) (hh : 0 < h) (hxw : x + w ≤ sw) (hyh : y + h ≤ sh) :
    take_selection_data st = some (w, h, crop_rows buf sw x y w h) ∧
    (crop_rows buf sw x y w h).length = w * h * 4 := by
  have hlen : (crop_rows buf sw x y w h).length = h * (w * 4) :=
    crop_rows_length buf sw sh x y w h hbuf hxw hyh
  have hlen4 : (crop_rows buf sw x y w h).length = w * h * 4 := by rw [hlen]; ring
  constructor
  · simp only [take_selection_data, hs, hsel]
    rw [if_neg (by omega), if_neg (by omega),
      Nat.min_eq_left (by omega), Nat.min_eq_left (by omega), if_pos hlen4]
  · exact hlen4

/-- C1: for a stored screenshot of size `(W, H)` and a selection
`(x, y, w, h)` with `x + w ≤ W`, `y + h ≤ H`, `w > 0`, `h > 0`,
`take_selection_png` assembles an RGBA buffer of exactly `w * h` pixels and
hands the encoder exactly the dimensions `w × h`. -/
theorem take_selection_png_has_selection_dims (st : OverlayState)
    (sw sh x y w h : ℕ) (buf : List ℕ) (hs : st.screenshot = some (sw, sh, buf))
    (hsel : st.selection = some (x, y, w, h)) (hbuf : buf.length = sw * sh * 4)
    (hw : 0 < w) (hh : 0 < h) (hxw : x + w ≤ sw) (hyh : y + h ≤ sh) :
    ∃ data, take_selection_data st = some (w, h, data) ∧
      data.length = w * h * 4 :=
  ⟨crop_rows buf sw x y w h,
    (take_selection_data_eq st sw sh x y w h buf hs hsel hbuf hw hh hxw hyh).1,
    (take_selection_data_eq st sw sh x y w h buf hs hsel hbuf hw hh hxw hyh).2⟩

/-- Witness for `take_selection_png_has_selection_dims`: the 4×4 crop of an
8×8 capture. -/
theorem take_selection_png_has_selection_dims_witness :
    ∃ data, take_selection_data c1_sample_state = some (4, 4, data) ∧
      data.length = 4 * 4 * 4 :=
  take_selection_png_has_selection_dims c1_sample_state 8 8 2 2 4 4
    (List.replicate 256 0) rfl rfl (by rw [List.length_replicate]) (by omega)
    (by omega) (by omega) (by omega)

/-! ## C7 — the Pin button pastes the selection at its absolute position -/

/-- C7: releasing the left button over the Pin toolbar button (slot 1) in
`IdleWithSelection` with a selection `(x, y, w, h)` contained in the capture
crops and encodes it, hides the overlay, and returns
`PasteSelection { png, width = w, height = h, screen_x = origin.x + x,
screen_y = origin.y + y }`; the controller then creates the snapshot window
at outer position `(screen_x - margin, screen_y - margin)` with the fixed
border margin 2. -/
theorem pin_release_emits_paste (st : OverlayState) (sw sh x y w h : ℕ)
    (buf : List ℕ) (bX bY bW bH : ℤ)
    (hv : st.visible = true) (hm : st.mode = .idleWithSelection)
    (hs : st.screenshot = some (sw, sh, buf))
    (hsel : st.selection = some (x, y, w, h))
    (htb : st.toolbarRect = some (bX, bY, bW, bH))
    (hhit : hit_test_toolbar_button (satI32 st.lastCursor.1)
      (satI32 st.lastCursor.2) bX bY bW bH = some 1)
    (hbuf : buf.length = sw * sh * 4) (hw : 0 < w) (hh : 0 < h)
    (hxw : x + w ≤ sw) (hyh : y + h ≤ sh)
    (hswr : sw < 2147483648) (hshr : sh < 2147483648) :
    handle_event st (.mouseLeft false) =
      (hide st, .pasteSelection (w, h, crop_rows buf sw x y w h) w h
        (st.origin.1 + (x : ℤ)) (st.origin.2 + (y : ℤ))) ∧
    controller_paste_outer_pos (handle_event st (.mouseLeft false)).2 =
      some (st.origin.1 + (x : ℤ) - 2, st.origin.2 + (y : ℤ) - 2) := by
  have hdata := (take_selection_data_eq st sw sh x y w h buf hs hsel hbuf
    hw hh hxw hyh).1
  have hx31 : x < 2147483648 := by omega
  have hy31 : y < 2147483648 := by omega
  have hmain : handle_event st (.mouseLeft false) =
      (hide st, .pasteSelection (w, h, crop_rows buf sw x y w h) w h
        (st.origin.1 + (x : ℤ)) (st.origin.2 + (y : ℤ))) := by
    simp [handle_event, hv, hm, htb, hhit, execute_toolbar_button, hdata,
      hsel, toI32_of_lt hx31, toI32_of_lt hy31, hide]
  refine ⟨hmain, ?_⟩
  rw [hmain]
  rfl

/-- Witness for `pin_release_emits_paste` at `c7_sample_state`. -/
theorem pin_release_emits_paste_witness :
    handle_event c7_sample_state (.mouseLeft false) =
      (hide c7_sample_state,
        .pasteSelection (4, 4, crop_rows (List.replicate 256 0) 8 2 2 4 4) 4 4
          (c7_sample_state.origin.1 + (2 : ℤ))
          (c7_sample_state.origin.2 + (2 : ℤ))) ∧
    controller_paste_outer_pos (handle_event c7_sample_state (.mouseLeft false)).2 =
      some (c7_sample_state.origin.1 + (2 : ℤ) - 2,
        c7_sample_state.origin.2 + (2 : ℤ) - 2) :=
  pin_release_emits_paste c7_sample_state 8 8 2 2 4 4 (List.replicate 256 0)
    0 50 268 28 rfl rfl rfl rfl rfl (by decide)
    (by rw [List.length_replicate]) (by omega) (by omega) (by omega) (by omega)
    (by omega) (by omega)

/-! ## C5 — toolbar placement stays on the screen -/

/-- `Int.tdiv` by 2 on a natural-number cast is plain division. -/
theorem tdiv_two_cast (n : ℕ) : Int.tdiv (n : ℤ) 2 = (n : ℤ) / 2 :=
  tdiv_two_nonneg _ (Int.natCast_nonneg n)

/-- C5 counterexample: on a screen narrower than the 268px bar the claimed
containment fails — selection (0, 0, 10, 10) on a 100×1080 screen places the
bar at (0, 16) with width 268, and 0 + 268 > 100 (the source pins `bar_x`
to 0 when `max_x < 0`, leaving the full bar width sticking out). -/
theorem compute_toolbar_rect_narrow_screen_overflow :
    compute_toolbar_rect 0 0 10 10 100 1080 = some (0, 16, 268, 28) ∧
    ¬((0 : ℤ) + 268 ≤ (100 : ℤ)) := by decide

/-- C5 amended: for every selection with `w > 0` and `h > 0` contained in
the screen, and every screen at least as large as the toolbar
(`screenW ≥ 268 = bar width`, `screenH ≥ 28 = bar height`),
`compute_toolbar_rect` returns `Some` rectangle `(bx, by, 268, 28)` with
`0 ≤ bx`, `0 ≤ by`, `bx + 268 ≤ screenW` and `by + 28 ≤ screenH`. -/
theorem compute_toolbar_rect_in_bounds (selX selY selW selH screenW screenH : ℕ)
    (hw : 0 < selW) (hh : 0 < selH)
    (hxw : selX + selW ≤ screenW) (hyh : selY + selH ≤ screenH)
    (hwide : 268 ≤ screenW) (htall : 28 ≤ screenH)
    (hswr : screenW < 2147483648) (hshr : screenH < 2147483648) :
    ∃ barX barY,
      compute_toolbar_rect selX selY selW selH screenW screenH =
        some (barX, barY, 268, 28) ∧
      0 ≤ barX ∧ 0 ≤ barY ∧ barX + 268 ≤ (screenW : ℤ) ∧
      barY + 28 ≤ (screenH : ℤ) := by
  have hx31 : selX < 2147483648 := by omega
  have hy31 : selY < 2147483648 := by omega
  have hw31 : selW < 2147483648 := by omega
  have hh31 : selH < 2147483648 := by omega
  unfold compute_toolbar_rect
  simp only [toI32_of_lt hx31, toI32_of_lt hy31, toI32_of_lt hw31,
    toI32_of_lt hh31, toI32_of_lt hswr, toI32_of_lt hshr,
    show TB_TOTAL_W = 268 from by decide, show TB_TOTAL_H = 28 from by decide,
    show TB_MARGIN = 6 from by decide, show INSET_PAD = 4 from by decide,
    show Int.tdiv (268 : ℤ) 2 = 134 from by decide, tdiv_two_cast]
  split_ifs <;>
    first
      | (exfalso; omega)
      | (refine ⟨_, _, rfl, ?_, ?_, ?_, ?_⟩ <;> omega)

/-- Witness for `compute_toolbar_rect_in_bounds`: selection
(100, 100, 400, 300) on a 1920×1080 screen. -/
theorem compute_toolbar_rect_in_bounds_witness :
    ∃ barX barY,
      compute_toolbar_rect 100 100 400 300 1920 1080 =
        some (barX, barY, 268, 28) ∧
      0 ≤ barX ∧ 0 ≤ barY ∧ barX + 268 ≤ (1920 : ℤ) ∧ barY + 28 ≤ (1080 : ℤ) :=
  compute_toolbar_rect_in_bounds 100 100 400 300 1920 1080 (by omega) (by omega)
    (by omega) (by omega) (by omega) (by omega) (by omega) (by omega)

/-! ## C6 — handle hit-testing under point reflection -/

/-- C6 counterexample: reflection consistency fails for a selection with
even dimensions — on the rect (0, 0, 12, 12) the cursor (11, 0) hits `Top`
(the midpoint anchor at x + w/2 = 6, checked before `TopRight`), but the
point-reflected cursor (0, 11) hits `BottomLeft`, not the mirror image
`Bottom` (with even `w` the reflection maps the Top anchor to x + w/2 - 1,
one pixel off the Bottom anchor). -/
theorem hit_test_handle_reflection_fails_even :
    hit_test_handle 11 0 0 0 12 12 = some ResizeHandle.top ∧
    hit_test_handle (2 * 0 + 12 - 1 - 11) (2 * 0 + 12 - 1 - 0) 0 0 12 12 =
      some ResizeHandle.bottomLeft ∧
    (some ResizeHandle.top).map mirrorHandle ≠ some ResizeHandle.bottomLeft := by
  decide

set_option maxHeartbeats 3200000 in
/-- C6 amended: `hit_test_handle` returns at most one handle per query (it
is a function into `Option`), and for selections with odd width and height
of at least 23 pixels it is consistent under point reflection through the
selection's center: mirroring the cursor maps TopLeft↔BottomRight,
TopRight↔BottomLeft, Top↔Bottom, Left↔Right and None to None.  Odd
dimensions make the eight anchor points exactly self-mirroring, and the size
bound keeps the 5px tolerance zones disjoint; the counterexample shows even
dimensions break the symmetry, and tiny selections (e.g. 1×1, where all
anchors coincide and the first-match order decides) break it as well. -/
theorem hit_test_handle_reflection (x y w h : ℕ) (cx cy : ℤ)
    (hwo : w % 2 = 1) (hho : h % 2 = 1) (hw : 23 ≤ w) (hh : 23 ≤ h)
    (hxr : x + w ≤ 2147483648) (hyr : y + h ≤ 2147483648) :
    hit_test_handle (2 * (x : ℤ) + (w : ℤ) - 1 - cx)
        (2 * (y : ℤ) + (h : ℤ) - 1 - cy) x y w h =
      (hit_test_handle cx cy x y w h).map mirrorHandle := by
  have h0 : ¬(w = 0 ∨ h = 0) := by omega
  have hx31 : x < 2147483648 := by omega
  have hy31 : y < 2147483648 := by omega
  have hw31 : w < 2147483648 := by omega
  have hh31 : h < 2147483648 := by omega
  simp only [hit_test_handle, h0, if_false, toI32_of_lt hx31, toI32_of_lt hy31,
    toI32_of_lt hw31, toI32_of_lt hh31, tdiv_two_cast,
    apply_ite (Option.map mirrorHandle), Option.map_some', Option.map_none',
    mirrorHandle]
  set mcx := 2 * (x : ℤ) + (w : ℤ) - 1 - cx with hmcx
  set mcy := 2 * (y : ℤ) + (h : ℤ) - 1 - cy with hmcy
  have q1 : near mcx mcy ((x : ℤ)) ((y : ℤ)) ↔
      near cx cy ((x : ℤ) + (w : ℤ) - 1) ((y : ℤ) + (h : ℤ) - 1) := by
    simp only [near]; omega
  have q2 : near mcx mcy ((x : ℤ) + (w : ℤ) / 2) ((y : ℤ)) ↔
      near cx cy ((x : ℤ) + (w : ℤ) / 2) ((y : ℤ) + (h : ℤ) - 1) := by
    simp only [near]; omega
  have q3 : near mcx mcy ((x : ℤ) + (w : ℤ) - 1) ((y : ℤ)) ↔
      near cx cy ((x : ℤ)) ((y : ℤ) + (h : ℤ) - 1) := by
    simp only [near]; omega
  have q4 : near mcx mcy ((x : ℤ) + (w : ℤ) - 1) ((y : ℤ) + (h : ℤ) / 2) ↔
      near cx cy ((x : ℤ)) ((y : ℤ) + (h : ℤ) / 2) := by
    simp only [near]; omega
  have q5 : near mcx mcy ((x : ℤ) + (w : ℤ) - 1) ((y : ℤ) + (h : ℤ) - 1) ↔
      near cx cy ((x : ℤ)) ((y : ℤ)) := by
    simp only [near]; omega
  have q6 : near mcx mcy ((x : ℤ) + (w : ℤ) / 2) ((y : ℤ) + (h : ℤ) - 1) ↔
      near cx cy ((x : ℤ) + (w : ℤ) / 2) ((y : ℤ)) := by
    simp only [near]; omega
  have q7 : near mcx mcy ((x : ℤ)) ((y : ℤ) + (h : ℤ) - 1) ↔
      near cx cy ((x : ℤ) + (w : ℤ) - 1) ((y : ℤ)) := by
    simp only [near]; omega
  have q8 : near mcx mcy ((x : ℤ)) ((y : ℤ) + (h : ℤ) / 2) ↔
      near cx cy ((x : ℤ) + (w : ℤ) - 1) ((y : ℤ) + (h : ℤ) / 2) := by
    simp only [near]; omega
  simp only [q1, q2, q3, q4, q5, q6, q7, q8]
  split_ifs <;> first | rfl | (exfalso; simp only [near] at *; omega)

/-- Witness for `hit_test_handle_reflection`: the 23×23 selection at the
origin with the cursor on the TopLeft anchor. -/
theorem hit_test_handle_reflection_witness :
    hit_test_handle (2 * (0 : ℤ) + (23 : ℤ) - 1 - 0)
        (2 * (0 : ℤ) + (23 : ℤ) - 1 - 0) 0 0 23 23 =
      (hit_test_handle 0 0 0 0 23 23).map mirrorHandle :=
  hit_test_handle_reflection 0 0 23 23 0 0 (by omega) (by omega) (by omega)
    (by omega) (by omega) (by omega)

/-! ## C8 — capture_area crops exactly the monitor intersection -/

/-- Byte-level content of the row-copy loop: output byte
`(r * rw + c) * 4 + k` is input byte `((y + r) * sw + x) * 4 + (c * 4 + k)`. -/
theorem crop_rows_getElem (buf : List ℕ) (sw sh x y rw : ℕ) :
    ∀ (n r c k : ℕ), buf.length = sw * sh * 4 → x + rw ≤ sw → y + n ≤ sh →
      r < n → c < rw → k < 4 →
      (crop_rows buf sw x y rw n)[(r * rw + c) * 4 + k]? =
        buf[((y + r) * sw + x) * 4 + (c * 4 + k)]? := by
  intro n
  induction n with
  | zero => omega
  | succ m ih =>
    intro r c k hbuf hx hyn hr hc hk
    have hpre : (crop_rows buf sw x y rw m).length = m * (rw * 4) :=
      crop_rows_length buf sw sh x y rw m hbuf hx (by omega)
    have hassoc : m * (rw * 4) = m * rw * 4 := by ring
    rcases Nat.lt_succ_iff_lt_or_eq.mp hr with hlt | heq
    · have hA : (r + 1) * rw ≤ m * rw := Nat.mul_le_mul_right rw (by omega)
      have hA2 : (r + 1) * rw = r * rw + rw := by ring
      rw [crop_rows, List.getElem?_append, if_pos (by omega)]
      exact ih r c k hbuf hx (by omega) hlt hc hk
    · subst heq
      rw [crop_rows, List.getElem?_append, if_neg (by omega), hpre,
        show (r * rw + c) * 4 + k - r * (rw * 4) = c * 4 + k from by omega,
        List.getElem?_take, if_pos (by omega), List.getElem?_drop]

/-- C8: for a requested rectangle whose top-left corner the chosen monitor
contains and whose intersection with that monitor's pixel bounds is
non-empty, `capture_area` (with a successful capture, channel toggle unset)
produces the crop of exactly that intersection: row offset
`(max(rect.x - originX, 0), max(rect.y - originY, 0))`, dimensions
`(min(width, imageW - relX), min(height, imageH - relY))`, a full
`cropW * cropH * 4`-byte buffer whose bytes are the corresponding monitor
pixels. -/
theorem capture_area_crops_intersection (shot : MonitorShot) (rect : CaptureRect)
    (relX relY cropW cropH : ℕ)
    (hxin : shot.originX ≤ rect.x) (hxlt : rect.x < shot.originX + (shot.imgW : ℤ))
    (hyin : shot.originY ≤ rect.y) (hylt : rect.y < shot.originY + (shot.imgH : ℤ))
    (hw : 0 < rect.width) (hh : 0 < rect.height)
    (hraw : shot.raw.length = shot.imgW * shot.imgH * 4)
    (himgW : shot.imgW < 2147483648) (himgH : shot.imgH < 2147483648)
    (hrx : (relX : ℤ) = max (rect.x - shot.originX) 0)
    (hry : (relY : ℤ) = max (rect.y - shot.originY) 0)
    (hcw : cropW = min rect.width (shot.imgW - relX))
    (hch : cropH = min rect.height (shot.imgH - relY)) :
    capture_area_crop false shot rect =
      (cropW, cropH, crop_rows shot.raw shot.imgW relX relY cropW cropH) ∧
    0 < cropW ∧ 0 < cropH ∧
    (crop_rows shot.raw shot.imgW relX relY cropW cropH).length =
      cropW * (cropH * 4) ∧
    (∀ r c k, r < cropH → c < cropW → k < 4 →
      (crop_rows shot.raw shot.imgW relX relY cropW cropH)[(r * cropW + c) * 4 + k]? =
        shot.raw[((relY + r) * shot.imgW + relX) * 4 + (c * 4 + k)]?) := by
  have hrelx_lt : relX < shot.imgW := by omega
  have hrely_lt : relY < shot.imgH := by omega
  have ex : wrap32 (max (rect.x - shot.originX) 0) = relX := by
    rw [wrap32_of_nonneg (by omega) (by omega)]
    omega
  have ey : wrap32 (max (rect.y - shot.originY) 0) = relY := by
    rw [wrap32_of_nonneg (by omega) (by omega)]
    omega
  have hxw : relX + cropW ≤ shot.imgW := by omega
  have hyh' : relY + cropH ≤ shot.imgH := by omega
  refine ⟨?_, by omega, by omega, ?_, ?_⟩
  · unfold capture_area_crop maybe_convert_bgra
    simp only [Bool.false_eq_true, if_false, ex, ey, ← hcw, ← hch]
  · have := crop_rows_length shot.raw shot.imgW shot.imgH relX relY cropW cropH
      hraw hxw hyh'
    rw [this]
    ring
  · intro r c k hr hc hk
    rw [crop_rows_getElem shot.raw shot.imgW shot.imgH relX relY cropW cropH
      r c k hraw hxw hyh' hr hc hk]

set_option maxRecDepth 4096 in
/-- Witness for `capture_area_crops_intersection`: a 4×4 request at global
(6, 5) on a monitor with origin (2, 3) and an 8×8 image; the intersection is
the full 4×4 request at offset (4, 2). -/
theorem capture_area_crops_intersection_witness :
    capture_area_crop false
        ⟨2, 3, 8, 8, List.replicate 256 7⟩ ⟨6, 5, 4, 4⟩ =
      (4, 4, crop_rows (List.replicate 256 7) 8 4 2 4 4) ∧
    0 < 4 ∧ 0 < 4 ∧
    (crop_rows (List.replicate 256 7) 8 4 2 4 4).length = 4 * (4 * 4) ∧
    (∀ r c k, r < 4 → c < 4 → k < 4 →
      (crop_rows (List.replicate 256 7) 8 4 2 4 4)[(r * 4 + c) * 4 + k]? =
        (List.replicate 256 7)[((2 + r) * 8 + 4) * 4 + (c * 4 + k)]?) :=
  capture_area_crops_intersection ⟨2, 3, 8, 8, List.replicate 256 7⟩ ⟨6, 5, 4, 4⟩
    4 2 4 4 (by decide) (by decide) (by decide) (by decide) (by decide)
    (by decide) (by decide) (by decide) (by decide)
    (by decide) (by decide) (by decide) (by decide)

/-! ## C9 — channel-order normalization policy -/

/-- `swap_chunks` keeps exactly the complete 4-byte chunks. -/
theorem swap_chunks_length : ∀ l : List ℕ,
    (swap_chunks l).length = 4 * (l.length / 4)
  | [] => rfl
  | [a] => by
    have e : swap_chunks [a] = [] := rfl
    rw [e]
    simp
  | [a, b] => by
    have e : swap_chunks [a, b] = [] := rfl
    rw [e]
    simp
  | [a, b, c] => by
    have e : swap_chunks [a, b, c] = [] := rfl
    rw [e]
    simp
  | _ :: _ :: _ :: _ :: rest => by
    have ih := swap_chunks_length rest
    simp only [swap_chunks, List.length_cons]
    omega

/-- Skipping one 4-byte pixel in a `getElem?` query. -/
theorem getElem_cons4 (p q u v : ℕ) (tl : List ℕ) (j : ℕ) :
    (p :: q :: u :: v :: tl)[j + 4]? = tl[j]? := by
  rw [show j + 4 = j + 3 + 1 from by omega, List.getElem?_cons_succ,
    show j + 3 = j + 2 + 1 from by omega, List.getElem?_cons_succ,
    show j + 2 = j + 1 + 1 from by omega, List.getElem?_cons_succ,
    List.getElem?_cons_succ]

/-- Byte-level content of the channel swap: within every complete 4-byte
pixel the first and third byte trade places and the second and fourth stay. -/
theorem swap_chunks_getElem : ∀ (l : List ℕ) (i : ℕ), 4 * i + 3 < l.length →
    (swap_chunks l)[4 * i]? = l[4 * i + 2]? ∧
    (swap_chunks l)[4 * i + 1]? = l[4 * i + 1]? ∧
    (swap_chunks l)[4 * i + 2]? = l[4 * i]? ∧
    (swap_chunks l)[4 * i + 3]? = l[4 * i + 3]?
  | [], i, hlen => by
    simp only [List.length_nil] at hlen
    omega
  | [_], i, hlen => by
    simp only [List.length_cons, List.length_nil] at hlen
    omega
  | [_, _], i, hlen => by
    simp only [List.length_cons, List.length_nil] at hlen
    omega
  | [_, _, _], i, hlen => by
    simp only [List.length_cons, List.length_nil] at hlen
    omega
  | b :: g :: r :: a :: rest, 0, hlen => by
    refine ⟨?_, ?_, ?_, ?_⟩ <;> simp [swap_chunks]
  | b :: g :: r :: a :: rest, (i + 1), hlen => by
    have ih := swap_chunks_getElem rest i (by simp at hlen; omega)
    have e : swap_chunks (b :: g :: r :: a :: rest) =
        r :: g :: b :: a :: swap_chunks rest := rfl
    rw [e, show 4 * (i + 1) = 4 * i + 4 from by omega]
    refine ⟨?_, ?_, ?_, ?_⟩
    · rw [getElem_cons4, show 4 * i + 4 + 2 = 4 * i + 2 + 4 from by omega,
        getElem_cons4]
      exact ih.1
    · rw [show 4 * i + 4 + 1 = 4 * i + 1 + 4 from by omega, getElem_cons4,
        getElem_cons4]
      exact ih.2.1
    · rw [show 4 * i + 4 + 2 = 4 * i + 2 + 4 from by omega, getElem_cons4,
        getElem_cons4]
      exact ih.2.2.1
    · rw [show 4 * i + 4 + 3 = 4 * i + 3 + 4 from by omega, getElem_cons4,
        getElem_cons4]
      exact ih.2.2.2

/-- C9 counterexample: with the toggle unset the `screenshot.rs` fullscreen
path still swaps channels — on the single BGRA-interpreted pixel
`[10, 20, 30, 255]` it outputs `[30, 20, 10, 255]`, so not every capture
path leaves the channel order unchanged, and the `screenshot.rs` paths
perform the swap unconditionally (they never consult the toggle). -/
theorem screenshot_path_swaps_unconditionally :
    screenshot_fullscreen_pixels [10, 20, 30, 255] 1 1 = [30, 20, 10, 255] ∧
    capture_fullscreen_pixels false [10, 20, 30, 255] 1 1 = [10, 20, 30, 255] ∧
    screenshot_fullscreen_pixels [10, 20, 30, 255] 1 1 ≠ [10, 20, 30, 255] := by
  decide

/-- C9 amended: the `capture.rs` paths are toggle-conditional — with the
toggle unset they pass the buffer through unchanged, with it set they swap
the first and third byte of every 4-byte pixel — but the `screenshot.rs`
capture paths call `bgra_to_rgba` unconditionally, performing the same swap
regardless of the toggle. -/
theorem channel_swap_policy (raw : List ℕ) (w h : ℕ)
    (hlen : raw.length = w * h * 4) :
    capture_fullscreen_pixels false raw w h = raw ∧
    capture_fullscreen_pixels true raw w h = swap_chunks raw ∧
    screenshot_fullscreen_pixels raw w h = swap_chunks raw ∧
    (∀ i, 4 * i + 3 < raw.length →
      (swap_chunks raw)[4 * i]? = raw[4 * i + 2]? ∧
      (swap_chunks raw)[4 * i + 1]? = raw[4 * i + 1]? ∧
      (swap_chunks raw)[4 * i + 2]? = raw[4 * i]? ∧
      (swap_chunks raw)[4 * i + 3]? = raw[4 * i + 3]?) := by
  have hsl : (swap_chunks raw).length = w * h * 4 := by
    rw [swap_chunks_length]
    omega
  have hbtr : bgra_to_rgba raw w h = swap_chunks raw := by
    unfold bgra_to_rgba
    rw [if_pos (by omega)]
  refine ⟨rfl, ?_, ?_, fun i hi => swap_chunks_getElem raw i hi⟩
  · unfold capture_fullscreen_pixels maybe_convert_bgra
    rw [if_pos rfl]
    exact hbtr
  · unfold screenshot_fullscreen_pixels
    exact hbtr

/-- Witness for `channel_swap_policy`: two pixels. -/
theorem channel_swap_policy_witness :
    capture_fullscreen_pixels false [1, 2, 3, 4, 5, 6, 7, 8] 2 1 =
      [1, 2, 3, 4, 5, 6, 7, 8] ∧
    capture_fullscreen_pixels true [1, 2, 3, 4, 5, 6, 7, 8] 2 1 =
      swap_chunks [1, 2, 3, 4, 5, 6, 7, 8] ∧
    screenshot_fullscreen_pixels [1, 2, 3, 4, 5, 6, 7, 8] 2 1 =
      swap_chunks [1, 2, 3, 4, 5, 6, 7, 8] ∧
    (∀ i, 4 * i + 3 < ([1, 2, 3, 4, 5, 6, 7, 8] : List ℕ).length →
      (swap_chunks [1, 2, 3, 4, 5, 6, 7, 8])[4 * i]? =
        ([1, 2, 3, 4, 5, 6, 7, 8] : List ℕ)[4 * i + 2]? ∧
      (swap_chunks [1, 2, 3, 4, 5, 6, 7, 8])[4 * i + 1]? =
        ([1, 2, 3, 4, 5, 6, 7, 8] : List ℕ)[4 * i + 1]? ∧
      (swap_chunks [1, 2, 3, 4, 5, 6, 7, 8])[4 * i + 2]? =
        ([1, 2, 3, 4, 5, 6, 7, 8] : List ℕ)[4 * i]? ∧
      (swap_chunks [1, 2, 3, 4, 5, 6, 7, 8])[4 * i + 3]? =
        ([1, 2, 3, 4, 5, 6, 7, 8] : List ℕ)[4 * i + 3]?) :=
  channel_swap_policy [1, 2, 3, 4, 5, 6, 7, 8] 2 1 rfl

end Snip
